import Mathlib

/-!
Verification of the timing and objective-state engine of the AirSoft game
controller (Search & Destroy, Sabotage and Domination modes).

The definitions below are a shallow embedding of the source:
* `usub` models C `unsigned long` (32-bit) subtraction, which every
  elapsed-time computation in the source uses (`millis() - start`).
* `timeExpired` / `expiredOrOverflow` are the two remaining-time check
  expressions appearing verbatim in every mode loop.
* `holdLoop` is the inner "hold-to-act" polling loop shared by the arming,
  disarming, capturing and neutralizing actions.
* `printTime`, `comparePassword`, the Domination zone bookkeeping and the
  per-iteration step functions of the mode loops follow their respective
  source functions.
-/

namespace AirSoft

/-- `2^32`, the modulus of Arduino `unsigned long` arithmetic. -/
def U32 : Nat := 4294967296

/-- 32-bit unsigned subtraction `a - b` as computed by C `unsigned long`
arithmetic (used for every `millis() - start` and `minutes - elapsed/60000`
expression in the source). -/
def usub (a b : Nat) : Nat := (a % U32 + U32 - b % U32) % U32

/-- The remaining-time expiry check used at the top of every mode loop, e.g.
`domination()` line 95, `search()` line 68, `destroy()` line 216:
`minutes - elapsed / 60000 == 0 && 59 - ((elapsed / 1000) % 60) == 0`. -/
def timeExpired (minutes elapsed : Nat) : Bool :=
  usub minutes (elapsed / 60000) == 0 && 59 - elapsed / 1000 % 60 == 0

/-- The guarded expiry check used inside the hold-action inner loops, e.g.
`domination()` lines 113-114, `search()` lines 114-115: the plain expiry
check or the unsigned-underflow safeguard
`minutes - elapsed / 60000 > 4000000000`. -/
def expiredOrOverflow (minutes elapsed : Nat) : Bool :=
  timeExpired minutes elapsed ||
    decide (4000000000 < usub minutes (elapsed / 60000))

/-- Hold-action progress: `progressPercent = elapsedAction / (ACTIVATESECONDS * 10)`
(source: `domination()` lines 130/176/221, `search()` line 133,
`destroy()` line 281, `sabotage()` line 135, `destroySabotage()` line 285). -/
def progressPercent (startAction now S : Nat) : Nat :=
  usub now startAction / (S * 10)

/-- One polling-loop iteration's observation: the `millis()` sample and the
hold-input flag (`defusing` / `cancelando`) as read at the loop condition. -/
structure Tick where
  now : Nat
  held : Bool
deriving DecidableEq, Repr

/-- Result of the inner hold loop. `expired` models the branch that sets
`endGame = true` and leaves the loop on game-clock expiry; `completed t`
carries the `millis()` sample of the completing iteration. -/
inductive HoldResult where
  | completed (t : Nat)
  | cancelled
  | expired
deriving DecidableEq, Repr

/-- The inner hold-to-act loop shared by all modes (e.g. `destroy()` lines
257-289): while the hold-input is active, check the enclosing clock for
expiry (with the overflow safeguard), then compute the progress percent and
complete at 100%. Returns `none` if the finite observation list runs out
before the loop decides. -/
def holdLoop (minutes initialTime startAction S : Nat) :
    List Tick → Option HoldResult
  | [] => none
  | t :: rest =>
    if t.held then
      if expiredOrOverflow minutes (usub t.now initialTime) then some .expired
      else if 100 ≤ progressPercent startAction t.now S then
        some (.completed t.now)
      else holdLoop minutes initialTime startAction S rest
    else some .cancelled

-- Basic facts about 32-bit subtraction.

theorem usub_self (a : Nat) : usub a a = 0 := by
  unfold usub
  have h : a % U32 + U32 - a % U32 = U32 := by omega
  rw [h, Nat.mod_self]

theorem usub_eq_sub (a b : Nat) (ha : a < U32) (hb : b ≤ a) :
    usub a b = a - b := by
  unfold usub
  have hb' : b < U32 := lt_of_le_of_lt hb ha
  rw [Nat.mod_eq_of_lt ha, Nat.mod_eq_of_lt hb']
  have h1 : a % U32 = a := Nat.mod_eq_of_lt ha
  have h2 : a + U32 - b = U32 + (a - b) := by omega
  rw [h2, Nat.add_mod_left, Nat.mod_eq_of_lt (by omega)]

theorem usub_add_right (a d : Nat) (h : a + d < U32) :
    usub (a + d) a = d := by
  have := usub_eq_sub (a + d) a h (Nat.le_add_right a d)
  omega

/-- The display fields produced by `printTime()` (Zutils.ino lines 66-92):
the hours component is printed only when it is at least 1; minutes and
seconds are printed with leading zeros. -/
structure TimeDisplay where
  hours : Nat
  mins : Nat
  secs : Nat
deriving DecidableEq, Repr

/-- `printTime(minutes, aTime)` (Zutils.ino lines 66-92):
`remainingMinutes = minutes - aTime / 60000` in unsigned arithmetic, split
into hours and minutes; `remainingSecs = 59 - (aTime / 1000 % 60)`
(no underflow possible there since the modulus is at most 59). The trailing
millisecond field `999 - millis() % 1000` is cosmetic and not modelled. -/
def printTime (minutes aTime : Nat) : TimeDisplay :=
  let remainingMinutes := usub minutes (aTime / 60000)
  { hours := remainingMinutes / 60
    mins := remainingMinutes % 60
    secs := 59 - aTime / 1000 % 60 }

/-- The remaining whole minutes shown by a `TimeDisplay`. -/
def wholeMinutes (d : TimeDisplay) : Nat := d.hours * 60 + d.mins

/-- The remaining-time display produced by the mode loops: every mode sets
`int minutes = GAMEMINUTES - 1` (e.g. `search()` line 40, `domination()`
line 16) and calls `printTime(minutes, elapsed)`. -/
def modeTimeDisplay (GAMEMINUTES elapsed : Nat) : TimeDisplay :=
  printTime (GAMEMINUTES - 1) elapsed

theorem wholeMinutes_printTime (m a : Nat) :
    wholeMinutes (printTime m a) = usub m (a / 60000) := by
  unfold wholeMinutes printTime
  simp only
  omega

/-- Closed form of the mode countdown display for in-range elapsed times:
total remaining seconds shown = `60 * M - 1 - E / 1000`. -/
theorem modeTimeDisplay_total (M E : Nat) (h1 : 1 ≤ M) (hM : M ≤ 32767)
    (hE : E < M * 60000) :
    wholeMinutes (modeTimeDisplay M E) * 60 + (modeTimeDisplay M E).secs
      = 60 * M - 1 - E / 1000 := by
  unfold modeTimeDisplay
  have hq : E / 1000 / 60 = E / 60000 := by
    rw [Nat.div_div_eq_div_mul]
  have hq' : E / 60000 ≤ M - 1 := by
    have : E / 60000 < M := (Nat.div_lt_iff_lt_mul (by norm_num)).2 (by omega)
    omega
  have hu : usub (M - 1) (E / 60000) = (M - 1) - E / 60000 :=
    usub_eq_sub _ _ (by unfold U32; omega) hq'
  have hsec : E / 1000 < 60 * M := by
    have : E / 1000 < M * 60 := (Nat.div_lt_iff_lt_mul (by norm_num)).2 (by omega)
    omega
  have hdm : 60 * (E / 1000 / 60) + E / 1000 % 60 = E / 1000 :=
    Nat.div_add_mod _ 60
  have hmod : E / 1000 % 60 < 60 := Nat.mod_lt _ (by norm_num)
  rw [wholeMinutes_printTime, hu]
  show ((M - 1) - E / 60000) * 60 + (59 - E / 1000 % 60) = 60 * M - 1 - E / 1000
  omega

/-- Claim C3 counterexample: the mode loops call `printTime` with first
argument `GAMEMINUTES - 1`, so at `M = 1`, `E = 0` the displayed whole
minutes are `0`, not `M - E/60000 = 1`; moreover `E = 0` and `E = 1` are
both in range and produce the identical display, so the display is not
strictly decreasing in `E` at millisecond granularity. -/
theorem printTime_claim_counterexample :
    (0 : Nat) < 1 * 60000 ∧ (1 : Nat) < 1 * 60000
    ∧ modeTimeDisplay 1 0 = modeTimeDisplay 1 1
    ∧ wholeMinutes (modeTimeDisplay 1 0) ≠ 1 - 0 / 60000 := by
  refine ⟨by norm_num, by norm_num, by decide, by decide⟩

/-- Claim C3 (amended): the mode loops pass `GAMEMINUTES - 1` to
`printTime`, so for configured minutes `M ≥ 1` and elapsed `E < M * 60000`
the display shows whole minutes `(M - 1) - E / 60000` and seconds
`59 - (E / 1000 mod 60)`; the displayed total remaining seconds equal
`60 * M - 1 - E / 1000`, hence the display is strictly decreasing as a
function of the elapsed whole second `E / 1000` (though constant within
each second), and it reads (0 min, 0 sec) exactly for the final elapsed
second `E / 1000 = 60 * M - 1`. -/
theorem printTime_countdown (M E : Nat) (h1 : 1 ≤ M) (hM : M ≤ 32767)
    (hE : E < M * 60000) :
    wholeMinutes (modeTimeDisplay M E) = (M - 1) - E / 60000
    ∧ (modeTimeDisplay M E).secs = 59 - E / 1000 % 60
    ∧ wholeMinutes (modeTimeDisplay M E) * 60 + (modeTimeDisplay M E).secs
        = 60 * M - 1 - E / 1000
    ∧ (∀ E', E' < M * 60000 → E / 1000 < E' / 1000 →
        wholeMinutes (modeTimeDisplay M E') * 60 + (modeTimeDisplay M E').secs
          < wholeMinutes (modeTimeDisplay M E) * 60 + (modeTimeDisplay M E).secs)
    ∧ ((wholeMinutes (modeTimeDisplay M E) = 0 ∧ (modeTimeDisplay M E).secs = 0)
        ↔ E / 1000 = 60 * M - 1) := by
  have ht := modeTimeDisplay_total M E h1 hM hE
  have hmins : wholeMinutes (modeTimeDisplay M E) = (M - 1) - E / 60000 := by
    unfold modeTimeDisplay
    rw [wholeMinutes_printTime]
    have hq' : E / 60000 ≤ M - 1 := by
      have : E / 60000 < M := (Nat.div_lt_iff_lt_mul (by norm_num)).2 (by omega)
      omega
    exact usub_eq_sub _ _ (by unfold U32; omega) hq'
  have hsecs : (modeTimeDisplay M E).secs = 59 - E / 1000 % 60 := rfl
  have hsec : E / 1000 < 60 * M := by
    have : E / 1000 < M * 60 := (Nat.div_lt_iff_lt_mul (by norm_num)).2 (by omega)
    omega
  refine ⟨hmins, hsecs, ht, ?_, ?_⟩
  · intro E' hE' hlt
    have ht' := modeTimeDisplay_total M E' h1 hM hE'
    have hsec' : E' / 1000 < 60 * M := by
      have : E' / 1000 < M * 60 := (Nat.div_lt_iff_lt_mul (by norm_num)).2 (by omega)
      omega
    omega
  · omega

/-- Witness for `printTime_countdown` at `M = 1`, `E = 0`. -/
theorem printTime_countdown_witness :
    (1 ≤ 1 ∧ 1 ≤ 32767 ∧ 0 < 1 * 60000)
    ∧ (wholeMinutes (modeTimeDisplay 1 0) = (1 - 1) - 0 / 60000
      ∧ (modeTimeDisplay 1 0).secs = 59 - 0 / 1000 % 60
      ∧ wholeMinutes (modeTimeDisplay 1 0) * 60 + (modeTimeDisplay 1 0).secs
          = 60 * 1 - 1 - 0 / 1000
      ∧ (∀ E', E' < 1 * 60000 → 0 / 1000 < E' / 1000 →
          wholeMinutes (modeTimeDisplay 1 E') * 60 + (modeTimeDisplay 1 E').secs
            < wholeMinutes (modeTimeDisplay 1 0) * 60 + (modeTimeDisplay 1 0).secs)
      ∧ ((wholeMinutes (modeTimeDisplay 1 0) = 0 ∧ (modeTimeDisplay 1 0).secs = 0)
          ↔ 0 / 1000 = 60 * 1 - 1)) :=
  ⟨⟨by norm_num, by norm_num, by norm_num⟩,
    printTime_countdown 1 0 (by norm_num) (by norm_num) (by norm_num)⟩

/-- The loop body of `comparePassword()` (part_002 lines 9-16) from index
`i`: return `false` at the first mismatching position, `true` after all 8
positions have been checked. -/
def comparePasswordAux (codeInput password : Fin 8 → Char) (i : Nat) : Bool :=
  if h : i < 8 then
    if codeInput ⟨i, h⟩ != password ⟨i, h⟩ then false
    else comparePasswordAux codeInput password (i + 1)
  else true
termination_by 8 - i

/-- `comparePassword()` (part_002 lines 9-16): position-by-position
comparison of the 8-symbol entered code against the stored code. -/
def comparePassword (codeInput password : Fin 8 → Char) : Bool :=
  comparePasswordAux codeInput password 0

theorem comparePasswordAux_eq_true_iff (a b : Fin 8 → Char) (i : Nat) :
    comparePasswordAux a b i = true ↔ ∀ k : Fin 8, i ≤ (k : Nat) → a k = b k := by
  suffices H : ∀ n i, 8 - i = n →
      (comparePasswordAux a b i = true ↔ ∀ k : Fin 8, i ≤ (k : Nat) → a k = b k) by
    exact H (8 - i) i rfl
  intro n
  induction n with
  | zero =>
    intro i h
    rw [comparePasswordAux]
    have h8 : ¬ i < 8 := by omega
    rw [dif_neg h8]
    constructor
    · intro _ k hk
      exact absurd (lt_of_le_of_lt hk k.isLt) (by omega)
    · intro _
      rfl
  | succ n ih =>
    intro i h
    have h8 : i < 8 := by omega
    rw [comparePasswordAux, dif_pos h8]
    by_cases heq : a ⟨i, h8⟩ = b ⟨i, h8⟩
    · rw [if_neg (by simp [heq]), ih (i + 1) (by omega)]
      constructor
      · intro hrest k hk
        rcases Nat.lt_or_ge i (k : Nat) with hlt | hge
        · exact hrest k hlt
        · have hki : (k : Nat) = i := by omega
          have hk' : k = ⟨i, h8⟩ := Fin.ext hki
          rw [hk']
          exact heq
      · intro hall k hk
        exact hall k (by omega)
    · rw [if_pos (by simp [bne_iff_ne, heq])]
      constructor
      · intro hfalse
        cases hfalse
      · intro hall
        exact absurd (hall ⟨i, h8⟩ le_rfl) heq

theorem comparePassword_eq_true_iff (a b : Fin 8 → Char) :
    comparePassword a b = true ↔ ∀ k : Fin 8, a k = b k := by
  unfold comparePassword
  rw [comparePasswordAux_eq_true_iff]
  exact ⟨fun h k => h k (Nat.zero_le _), fun h k _ => h k⟩

/-- Claim C9: code comparison against itself returns true, and changing any
single one of the 8 positions (on either side) makes the comparison return
false — equality requires all 8 positions to match exactly. -/
theorem comparePassword_exact (c : Fin 8 → Char) (j : Fin 8) (x : Char)
    (hx : x ≠ c j) :
    comparePassword c c = true
    ∧ comparePassword (Function.update c j x) c = false
    ∧ comparePassword c (Function.update c j x) = false := by
  refine ⟨(comparePassword_eq_true_iff c c).2 fun k => rfl, ?_, ?_⟩
  · rw [← Bool.not_eq_true, comparePassword_eq_true_iff]
    intro hall
    exact hx (by simpa using hall j)
  · rw [← Bool.not_eq_true, comparePassword_eq_true_iff]
    intro hall
    exact hx (by simpa using (hall j).symm)

/-- Witness for `comparePassword_exact`: the all-'1' code with position 0
replaced by '2'. -/
theorem comparePassword_exact_witness :
    ('2' ≠ (fun _ : Fin 8 => '1') (0 : Fin 8))
    ∧ (comparePassword (fun _ : Fin 8 => '1') (fun _ : Fin 8 => '1') = true
      ∧ comparePassword (Function.update (fun _ : Fin 8 => '1') 0 '2')
          (fun _ : Fin 8 => '1') = false
      ∧ comparePassword (fun _ : Fin 8 => '1')
          (Function.update (fun _ : Fin 8 => '1') 0 '2') = false) :=
  ⟨by decide, comparePassword_exact (fun _ => '1') 0 '2' (by decide)⟩

/-- Result of one iteration of the pre-arming loop of `search()`
(part_003 lines 45-146): `failed` models `failSplash(); return`, `armed`
models entering `destroy()`, `codeError` the wrong-password cue, and
`continueSearch e` another loop iteration with the (possibly updated)
`endGame` flag. -/
inductive SearchResult where
  | failed
  | armed
  | codeError
  | continueSearch (endGame : Bool)
deriving DecidableEq, Repr

/-- One iteration of the `search()` main loop (part_003 lines 45-146):
check `endGame`, then the game-clock expiry, then the password-protected
arming branch (key `'d'`), then the hold-to-act arming branch. The hold
branch uses the current `millis()` sample as its fresh start instant and
its inner loop observes `holdTicks`. -/
def searchTick (minutes gameStart : Nat) (endGame : Bool) (now : Nat)
    (key : Option Char) (passwordEnable defusing : Bool)
    (codeInput pw : Fin 8 → Char) (S : Nat)
    (holdTicks : List Tick) : Option SearchResult :=
  if endGame then some .failed
  else if timeExpired minutes (usub now gameStart) then some .failed
  else if key == some 'd' && passwordEnable then
    some (if comparePassword codeInput pw then .armed else .codeError)
  else if defusing && !passwordEnable then
    match holdLoop minutes gameStart now S holdTicks with
    | some (.completed _) => some .armed
    | some .expired => some (.continueSearch true)
    | some .cancelled => some (.continueSearch false)
    | none => none
  else some (.continueSearch endGame)

/-- Result of one iteration of the armed-phase loop of `destroy()`
(part_003 lines 172-294): `exploded` models `explodeSplash(); return`,
`disarmed` models `disarmedSplash(); return` (terminal win), `codeError`
the wrong-password cue, and `continueArmed e` another loop iteration with
the (possibly updated) `endGame` flag. -/
inductive DestroyResult where
  | exploded
  | disarmed
  | codeError
  | continueArmed (endGame : Bool)
deriving DecidableEq, Repr

/-- One iteration of the `destroy()` main loop (part_003 lines 172-294):
check `endGame`, then the bomb-clock expiry, then the password-protected
disarm branch (key `'d'`, which runs `setCodeTime()` and compares the
entered code), then the hold-to-act disarm branch. Inner-hold expiry sets
`endGame` and breaks, producing `continueArmed true` (the next iteration
then explodes). -/
def destroyTick (minutes bombStart : Nat) (endGame : Bool) (now : Nat)
    (key : Option Char) (passwordEnable defusing : Bool)
    (codeInput pw : Fin 8 → Char) (S : Nat)
    (holdTicks : List Tick) : Option DestroyResult :=
  if endGame then some .exploded
  else if timeExpired minutes (usub now bombStart) then some .exploded
  else if key == some 'd' && passwordEnable then
    some (if comparePassword codeInput pw then .disarmed else .codeError)
  else if defusing && !passwordEnable then
    match holdLoop minutes bombStart now S holdTicks with
    | some (.completed _) => some .disarmed
    | some .expired => some (.continueArmed true)
    | some .cancelled => some (.continueArmed false)
    | none => none
  else some (.continueArmed endGame)

/-- Claim C2 counterexample: with `GAMEMINUTES = 45` (`minutes = 44`) and
elapsed `2700000` ms — one second past the expiry window — the underflow
condition `minutes < elapsed / 60000` holds, yet the main-loop
remaining-time check of `search()` does not detect it: the tick continues
the loop instead of producing the time-expired transition (the guard
`> 4000000000` exists only inside the hold-action loops). -/
theorem search_overshoot_not_detected :
    44 < usub 2700000 0 / 60000
    ∧ timeExpired 44 (usub 2700000 0) = false
    ∧ searchTick 44 0 false 2700000 none false false
        (fun _ => '0') (fun _ => '0') 5 []
        = some (.continueSearch false) := by
  refine ⟨by decide, by decide, by decide⟩

/-- Claim C2 (amended): the unsigned-underflow guard is applied only inside
the hold-action inner loops, where `expiredOrOverflow` does detect any
elapsed time past the configured duration as already expired; the
main-loop checks test exact equality and stay `false` once the elapsed
time has overshot the expiry window, so the guard is not applied at every
remaining-time check site. -/
theorem expiry_guard_sites (m E : Nat) (hm : m < U32) (hE : E < U32)
    (hover : m < E / 60000) :
    expiredOrOverflow m E = true ∧ timeExpired m E = false := by
  have hb : E / 60000 ≤ 71582 := by
    have h1 : E / 60000 ≤ (U32 - 1) / 60000 := Nat.div_le_div_right (by omega)
    have h2 : (U32 - 1) / 60000 = 71582 := by norm_num [U32]
    omega
  have hblt : E / 60000 < U32 := by unfold U32 at *; omega
  have hu : usub m (E / 60000) = m + U32 - E / 60000 := by
    unfold usub
    rw [Nat.mod_eq_of_lt hm, Nat.mod_eq_of_lt hblt]
    exact Nat.mod_eq_of_lt (by omega)
  have hgt : 4000000000 < usub m (E / 60000) := by
    rw [hu]; unfold U32 at *; omega
  have hne : (usub m (E / 60000) == 0) = false := by
    simp only [beq_eq_false_iff_ne, ne_eq]
    omega
  constructor
  · unfold expiredOrOverflow
    simp [hgt]
  · unfold timeExpired
    rw [hne, Bool.false_and]

/-- Witness for `expiry_guard_sites` at `m = 44`, `E = 2700000`. -/
theorem expiry_guard_sites_witness :
    (44 < U32 ∧ 2700000 < U32 ∧ 44 < 2700000 / 60000)
    ∧ (expiredOrOverflow 44 2700000 = true ∧ timeExpired 44 2700000 = false) :=
  ⟨⟨by norm_num [U32], by norm_num [U32], by norm_num⟩,
    expiry_guard_sites 44 2700000 (by norm_num [U32]) (by norm_num [U32])
      (by norm_num)⟩

/-- The Domination zone bookkeeping globals (StartUp.ino lines 90-95):
`team` is 0 = neutral, 1 = green, 2 = red; `iZoneTime` is the `millis()`
instant the current controller acquired the zone; `greenTime` / `redTime`
are the accumulated control totals. -/
structure ZoneState where
  team : Nat
  iZoneTime : Nat
  greenTime : Nat
  redTime : Nat
deriving DecidableEq, Repr

/-- The state mutation of a completed capture (part_000 lines 181-182 for
red, 226-227 for green): record the new controller and the acquisition
instant. -/
def zoneCaptureUpdate (tm t : Nat) (s : ZoneState) : ZoneState :=
  { s with team := tm, iZoneTime := t }

/-- The state mutation of a completed neutralize (part_000 lines 136-139):
accumulate `millis() - iZoneTime` into the holding team's total, then
reset the zone to neutral. -/
def zoneNeutralizeUpdate (t : Nat) (s : ZoneState) : ZoneState :=
  { team := 0
    iZoneTime := 0
    greenTime :=
      if s.team = 1 then s.greenTime + usub t s.iZoneTime else s.greenTime
    redTime :=
      if s.team = 2 then s.redTime + usub t s.iZoneTime else s.redTime }

/-- The final accumulation performed by `gameOver()` (part_000 lines
247-250): fold the current controller's open interval into its total
(`team` itself is not reset). -/
def gameOverFinalize (t : Nat) (s : ZoneState) : ZoneState :=
  { s with
    greenTime :=
      if s.team = 1 then s.greenTime + usub t s.iZoneTime else s.greenTime
    redTime :=
      if s.team = 2 then s.redTime + usub t s.iZoneTime else s.redTime }

/-- The winner declared by `gameOver()` (part_000 lines 266-273):
`if (greenTime > redTime)` green (1) wins, `else` red (2) wins. -/
def gameOverWinner (s : ZoneState) : Nat :=
  if s.redTime < s.greenTime then 1 else 2

/-- Result of one run of a Domination capture/neutralize hold handler.
`transition` carries the updated zone state and control returns to the
main loop; `cancelledUnchanged` is an early release (state untouched);
`exitMode` models part_000 lines 115-116: on game-clock expiry during the
hold the code executes `endGame = true; return;`, leaving `domination()`
entirely — `gameOver()` is never reached on this path. -/
inductive DomHoldResult where
  | transition (s : ZoneState)
  | cancelledUnchanged (s : ZoneState)
  | exitMode (s : ZoneState)
deriving DecidableEq, Repr

/-- The red capture handler of `domination()` (part_000 lines 147-189),
entered while the zone is neutral and the defuse key is held. -/
def captureRed (minutes initialTime startAction S : Nat)
    (ticks : List Tick) (s : ZoneState) : Option DomHoldResult :=
  match holdLoop minutes initialTime startAction S ticks with
  | some (.completed t) => some (.transition (zoneCaptureUpdate 2 t s))
  | some .cancelled => some (.cancelledUnchanged s)
  | some .expired => some (.exitMode s)
  | none => none

/-- The green capture handler of `domination()` (part_000 lines 192-234),
entered while the zone is neutral and the cancel key is held. -/
def captureGreen (minutes initialTime startAction S : Nat)
    (ticks : List Tick) (s : ZoneState) : Option DomHoldResult :=
  match holdLoop minutes initialTime startAction S ticks with
  | some (.completed t) => some (.transition (zoneCaptureUpdate 1 t s))
  | some .cancelled => some (.cancelledUnchanged s)
  | some .expired => some (.exitMode s)
  | none => none

/-- The neutralize handler of `domination()` (part_000 lines 101-144),
entered while a team holds the zone and either hold key is active. On
completion the code runs `delay(1000)` before accumulating, so the
accumulation instant is modelled as the completion sample plus 1000 ms. -/
def neutralizeZone (minutes initialTime startAction S : Nat)
    (ticks : List Tick) (s : ZoneState) : Option DomHoldResult :=
  match holdLoop minutes initialTime startAction S ticks with
  | some (.completed t) => some (.transition (zoneNeutralizeUpdate (t + 1000) s))
  | some .cancelled => some (.cancelledUnchanged s)
  | some .expired => some (.exitMode s)
  | none => none

/-- A control-change event of a Domination session: the completion of a
capture hold (recording the acquisition instant), the completion of a
neutralize hold (with its accumulation instant), or the end of the session
(`gameOver()` finalization at the given instant). -/
inductive ZoneEvent where
  | capture (tm t : Nat)
  | neutralize (t : Nat)
  | gameEnd (t : Nat)
deriving DecidableEq, Repr

/-- The zone bookkeeping over a sequence of control-change events, each
event applying the corresponding state mutation of the source. -/
def zoneRun (evs : List ZoneEvent) (s : ZoneState) : ZoneState :=
  match evs with
  | [] => s
  | .capture tm t :: rest => zoneRun rest (zoneCaptureUpdate tm t s)
  | .neutralize t :: rest => zoneRun rest (zoneNeutralizeUpdate t s)
  | .gameEnd t :: rest => zoneRun rest (gameOverFinalize t s)

/-- Specification-side view (from the spec's words): the list of
`release-instant - acquire-instant` control intervals of team `tm` along
an event trace, given the pending acquisition instant (if `tm` currently
holds the zone). -/
def intervalsOf (tm : Nat) : List ZoneEvent → Option Nat → List Nat
  | [], _ => []
  | .capture tm' t :: evs, none =>
      intervalsOf tm evs (if tm' = tm then some t else none)
  | .capture _ _ :: evs, some a => intervalsOf tm evs (some a)
  | .neutralize t :: evs, some a => usub t a :: intervalsOf tm evs none
  | .neutralize _ :: evs, none => intervalsOf tm evs none
  | .gameEnd t :: evs, some a => usub t a :: intervalsOf tm evs none
  | .gameEnd _ :: evs, none => intervalsOf tm evs none

/-- Well-formed event traces, tracking the current controller: captures
happen only from the neutral zone (and name team 1 or 2), neutralizes only
while a team holds the zone, and session end is the last event — exactly
the reachable orderings of the `domination()` loop, whose outer guards are
`defusing && team == 0`, `cancelando && team == 0` and
`(defusing || cancelando) && team > 0`. -/
def wfEvents : List ZoneEvent → Nat → Bool
  | [], _ => true
  | .capture tm _ :: evs, cur =>
      cur == 0 && (tm == 1 || tm == 2) && wfEvents evs tm
  | .neutralize _ :: evs, cur => cur != 0 && wfEvents evs 0
  | .gameEnd _ :: evs, _ => evs.isEmpty

/-- Claim C4: along any well-formed event trace, each team's accumulated
control total equals its starting total plus the sum of that team's
control intervals — totals change exactly at control changes or session
end, accumulate additively across hold/lose/re-acquire cycles, and are
never reset. -/
theorem zone_accumulation (evs : List ZoneEvent) (s : ZoneState)
    (h : wfEvents evs s.team = true) :
    (zoneRun evs s).greenTime
        = s.greenTime
          + (intervalsOf 1 evs
              (if s.team = 1 then some s.iZoneTime else none)).sum
    ∧ (zoneRun evs s).redTime
        = s.redTime
          + (intervalsOf 2 evs
              (if s.team = 2 then some s.iZoneTime else none)).sum := by
  induction evs generalizing s with
  | nil => simp [zoneRun, intervalsOf]
  | cons ev rest ih =>
    cases ev with
    | capture tm t =>
      rw [wfEvents] at h
      simp only [Bool.and_eq_true, beq_iff_eq, Bool.or_eq_true] at h
      obtain ⟨⟨hcur, htm⟩, hwf⟩ := h
      have hrec := ih (zoneCaptureUpdate tm t s) (by
        simpa [zoneCaptureUpdate] using hwf)
      simp only [zoneRun, intervalsOf, hcur, if_neg (by omega : ¬ (0 = 1)),
        if_neg (by omega : ¬ (0 = 2))]
      rcases htm with h1 | h2
      · subst h1
        simpa [zoneCaptureUpdate] using hrec
      · subst h2
        simpa [zoneCaptureUpdate] using hrec
    | neutralize t =>
      rw [wfEvents] at h
      simp only [Bool.and_eq_true, bne_iff_ne, ne_eq] at h
      obtain ⟨hcur, hwf⟩ := h
      have hrec := ih (zoneNeutralizeUpdate t s) (by
        simpa [zoneNeutralizeUpdate] using hwf)
      obtain ⟨e1, e2⟩ := hrec
      by_cases h1 : s.team = 1
      · simp only [zoneNeutralizeUpdate, h1] at e1 e2
        simp only [zoneRun, intervalsOf, h1, zoneNeutralizeUpdate,
          List.sum_cons]
        simp at e1 e2 ⊢
        omega
      · by_cases h2 : s.team = 2
        · simp only [zoneNeutralizeUpdate, h2, if_neg h1] at e1 e2
          simp only [zoneRun, intervalsOf, h2, if_neg h1,
            zoneNeutralizeUpdate, List.sum_cons]
          simp at e1 e2 ⊢
          omega
        · simp only [zoneNeutralizeUpdate, if_neg h1, if_neg h2] at e1 e2
          simp only [zoneRun, intervalsOf, if_neg h1, if_neg h2,
            zoneNeutralizeUpdate, List.sum_cons]
          simp at e1 e2 ⊢
          omega
    | gameEnd t =>
      rw [wfEvents] at h
      have hrest : rest = [] := by
        cases rest with
        | nil => rfl
        | cons a l => simp [List.isEmpty] at h
      subst hrest
      simp only [zoneRun, gameOverFinalize]
      by_cases h1 : s.team = 1
      · simp [intervalsOf, h1, if_neg (by omega : ¬ ((1:Nat) = 2))]
      · by_cases h2 : s.team = 2
        · simp [intervalsOf, h2, if_neg (by omega : ¬ ((2:Nat) = 1))]
        · simp [intervalsOf, if_neg h1, if_neg h2]

/-- Witness for `zone_accumulation`: green captures at 10, is neutralized
at 1000, re-captures at 2000, session ends at 5000 — green's total is
990 + 3000, red's stays 0. -/
theorem zone_accumulation_witness :
    wfEvents [ZoneEvent.capture 1 10, ZoneEvent.neutralize 1000,
      ZoneEvent.capture 1 2000, ZoneEvent.gameEnd 5000] (0 : Nat) = true
    ∧ ((zoneRun [ZoneEvent.capture 1 10, ZoneEvent.neutralize 1000,
          ZoneEvent.capture 1 2000, ZoneEvent.gameEnd 5000]
          ⟨0, 0, 0, 0⟩).greenTime
        = (0 : Nat)
          + (intervalsOf 1 [ZoneEvent.capture 1 10, ZoneEvent.neutralize 1000,
              ZoneEvent.capture 1 2000, ZoneEvent.gameEnd 5000]
              (if (0 : Nat) = 1 then some 0 else none)).sum
      ∧ (zoneRun [ZoneEvent.capture 1 10, ZoneEvent.neutralize 1000,
          ZoneEvent.capture 1 2000, ZoneEvent.gameEnd 5000]
          ⟨0, 0, 0, 0⟩).redTime
        = (0 : Nat)
          + (intervalsOf 2 [ZoneEvent.capture 1 10, ZoneEvent.neutralize 1000,
              ZoneEvent.capture 1 2000, ZoneEvent.gameEnd 5000]
              (if (0 : Nat) = 2 then some 0 else none)).sum) :=
  ⟨by decide,
    zone_accumulation
      [ZoneEvent.capture 1 10, ZoneEvent.neutralize 1000,
        ZoneEvent.capture 1 2000, ZoneEvent.gameEnd 5000]
      ⟨0, 0, 0, 0⟩ (by decide)⟩

/-- Claim C7: at Domination game-over the declared winner is green (1)
exactly when green's total is strictly greater, red (2) exactly when red's
total is greater or equal — so a tie always resolves to red, the same
fixed side, and every pair of totals yields exactly one winner. -/
theorem domination_winner_det :
    ∀ tm iz g r : Nat,
      (gameOverWinner ⟨tm, iz, g, r⟩ = 1 ↔ r < g)
      ∧ (gameOverWinner ⟨tm, iz, g, r⟩ = 2 ↔ g ≤ r)
      ∧ gameOverWinner ⟨tm, iz, g, g⟩ = 2 := by
  intro tm iz g r
  refine ⟨?_, ?_, by simp [gameOverWinner]⟩
  · by_cases h : r < g
    · simp [gameOverWinner, h]
    · simp [gameOverWinner, h]
  · by_cases h : r < g
    · simp only [gameOverWinner, if_pos h]
      constructor
      · intro hc
        exact absurd hc (by omega)
      · intro hle
        exact absurd hle (by omega)
    · simp only [gameOverWinner, if_neg h]
      constructor
      · intro _
        omega
      · intro _
        trivial

/-- Iterations whose tick is held, unexpired and below 100% just continue
the hold loop. -/
theorem holdLoop_append (minutes initial startAction S : Nat)
    (pre l : List Tick)
    (hpre : ∀ x ∈ pre, x.held = true
      ∧ expiredOrOverflow minutes (usub x.now initial) = false
      ∧ progressPercent startAction x.now S < 100) :
    holdLoop minutes initial startAction S (pre ++ l)
      = holdLoop minutes initial startAction S l := by
  induction pre with
  | nil => rfl
  | cons a pre ih =>
    obtain ⟨h1, h2, h3⟩ := hpre a (List.mem_cons_self a pre)
    rw [List.cons_append, holdLoop, h1, h2]
    rw [if_pos rfl, if_neg (by simp), if_neg (by omega)]
    exact ih fun x hx => hpre x (List.mem_cons_of_mem a hx)

/-- Claim C5: progress percent is elapsed hold milliseconds over
`ACTIVATESECONDS * 10`, so a hold of exactly `S` seconds reads exactly
100%; on the first tick whose percent reaches 100 the loop returns the
completion signal, and the result is the same for every continuation of
the observation list — the loop consumes nothing after the completing
tick, so completion is signalled exactly once and polling stops on that
tick. -/
theorem hold_completes_once (minutes initial startAction S : Nat)
    (hS : 0 < S) (hwrap : startAction + 1000 * S < U32)
    (pre : List Tick) (t : Tick) (post : List Tick)
    (hpre : ∀ x ∈ pre, x.held = true
      ∧ expiredOrOverflow minutes (usub x.now initial) = false
      ∧ progressPercent startAction x.now S < 100)
    (hheld : t.held = true)
    (hnoexp : expiredOrOverflow minutes (usub t.now initial) = false)
    (hdone : 100 ≤ progressPercent startAction t.now S) :
    progressPercent startAction (startAction + 1000 * S) S = 100
    ∧ (∀ post', holdLoop minutes initial startAction S (pre ++ t :: post')
        = some (.completed t.now))
    ∧ holdLoop minutes initial startAction S (pre ++ t :: post)
        = some (.completed t.now) := by
  have hstep : ∀ post', holdLoop minutes initial startAction S (pre ++ t :: post')
      = some (.completed t.now) := by
    intro post'
    rw [holdLoop_append minutes initial startAction S pre (t :: post') hpre]
    rw [holdLoop, hheld, hnoexp]
    rw [if_pos rfl, if_neg (by simp), if_pos hdone]
  refine ⟨?_, hstep, hstep post⟩
  unfold progressPercent
  rw [usub_add_right startAction (1000 * S) hwrap]
  have hmul : 1000 * S = 100 * (S * 10) := by ring
  rw [hmul, Nat.mul_div_cancel _ (by omega)]

/-- Witness for `hold_completes_once`: a 5-second hold starting at 0,
sampled at 1000 ms (20%) and 5000 ms (100%). -/
theorem hold_completes_once_witness :
    (0 < 5 ∧ 0 + 1000 * 5 < U32
      ∧ (∀ x ∈ [Tick.mk 1000 true], x.held = true
          ∧ expiredOrOverflow 44 (usub x.now 0) = false
          ∧ progressPercent 0 x.now 5 < 100)
      ∧ (Tick.mk 5000 true).held = true
      ∧ expiredOrOverflow 44 (usub (Tick.mk 5000 true).now 0) = false
      ∧ 100 ≤ progressPercent 0 (Tick.mk 5000 true).now 5)
    ∧ (progressPercent 0 (0 + 1000 * 5) 5 = 100
      ∧ (∀ post', holdLoop 44 0 0 5 ([Tick.mk 1000 true] ++ Tick.mk 5000 true :: post')
          = some (.completed (Tick.mk 5000 true).now))
      ∧ holdLoop 44 0 0 5 ([Tick.mk 1000 true] ++ Tick.mk 5000 true :: [])
          = some (.completed (Tick.mk 5000 true).now)) :=
  ⟨⟨by decide, by decide, by decide, by decide, by decide, by decide⟩,
    hold_completes_once 44 0 0 5 (by decide) (by decide)
      [Tick.mk 1000 true] (Tick.mk 5000 true) [] (by decide) (by decide)
      (by decide) (by decide)⟩

/-- Claim C6: a hold-input released before reaching 100% cancels the
action with no state change: the capture and neutralize handlers return
the zone state exactly as it was, the armed-phase disarm hold just
continues the armed loop (no disarm, no explosion, `endGame` still
false), and a fresh hold starts from 0% (`progressPercent` at a fresh
start instant is 0). -/
theorem hold_release_cancels (minutes initial startAction S : Nat)
    (s : ZoneState) (ci pw : Fin 8 → Char)
    (pre : List Tick) (u : Tick) (rest : List Tick)
    (hpre : ∀ x ∈ pre, x.held = true
      ∧ expiredOrOverflow minutes (usub x.now initial) = false
      ∧ progressPercent startAction x.now S < 100)
    (hu : u.held = false)
    (hnx : timeExpired minutes (usub startAction initial) = false) :
    captureRed minutes initial startAction S (pre ++ u :: rest) s
      = some (.cancelledUnchanged s)
    ∧ captureGreen minutes initial startAction S (pre ++ u :: rest) s
      = some (.cancelledUnchanged s)
    ∧ neutralizeZone minutes initial startAction S (pre ++ u :: rest) s
      = some (.cancelledUnchanged s)
    ∧ destroyTick minutes initial false startAction none false true ci pw S
        (pre ++ u :: rest)
      = some (.continueArmed false)
    ∧ ∀ t0, progressPercent t0 t0 S = 0 := by
  have hc : holdLoop minutes initial startAction S (pre ++ u :: rest)
      = some .cancelled := by
    rw [holdLoop_append minutes initial startAction S pre (u :: rest) hpre]
    rw [holdLoop, hu]
    rw [if_neg (by simp)]
  refine ⟨?_, ?_, ?_, ?_, ?_⟩
  · unfold captureRed
    rw [hc]
  · unfold captureGreen
    rw [hc]
  · unfold neutralizeZone
    rw [hc]
  · unfold destroyTick
    rw [if_neg (by simp), if_neg (by simp [hnx]), if_neg (by simp),
      if_pos (by simp), hc]
  · intro t0
    unfold progressPercent
    rw [usub_self]
    simp

/-- Witness for `hold_release_cancels`: a hold sampled once at 100 ms
(2%) and released at 200 ms, with green holding the zone. -/
theorem hold_release_cancels_witness :
    ((∀ x ∈ [Tick.mk 100 true], x.held = true
        ∧ expiredOrOverflow 44 (usub x.now 0) = false
        ∧ progressPercent 0 x.now 5 < 100)
      ∧ (Tick.mk 200 false).held = false
      ∧ timeExpired 44 (usub 0 0) = false)
    ∧ (captureRed 44 0 0 5 ([Tick.mk 100 true] ++ Tick.mk 200 false :: [])
          ⟨1, 50, 7, 3⟩
        = some (.cancelledUnchanged ⟨1, 50, 7, 3⟩)
      ∧ captureGreen 44 0 0 5 ([Tick.mk 100 true] ++ Tick.mk 200 false :: [])
          ⟨1, 50, 7, 3⟩
        = some (.cancelledUnchanged ⟨1, 50, 7, 3⟩)
      ∧ neutralizeZone 44 0 0 5 ([Tick.mk 100 true] ++ Tick.mk 200 false :: [])
          ⟨1, 50, 7, 3⟩
        = some (.cancelledUnchanged ⟨1, 50, 7, 3⟩)
      ∧ destroyTick 44 0 false 0 none false true (fun _ => '1') (fun _ => '1')
          5 ([Tick.mk 100 true] ++ Tick.mk 200 false :: [])
        = some (.continueArmed false)
      ∧ ∀ t0, progressPercent t0 t0 5 = 0) :=
  ⟨⟨by decide, by decide, by decide⟩,
    hold_release_cancels 44 0 0 5 ⟨1, 50, 7, 3⟩ (fun _ => '1') (fun _ => '1')
      [Tick.mk 100 true] (Tick.mk 200 false) [] (by decide) (by decide)
      (by decide)⟩

/-- Claim C1 (evaluating the code at the failing input): in Domination with
`GAMEMINUTES = 45` (`minutes = 44`), green holding the zone since 1000 ms,
a neutralize hold polled at 2699000 ms — inside the expiry window — takes
the `endGame = true; return;` branch (part_000 lines 115-116): the handler
exits `domination()` with the zone state untouched, so `gameOver()` never
runs, no total is finalized and no winner is declared. Had `gameOver()`
been reached (as the claim requires), it would have finalized green's
total to 2698000 and declared green the winner. -/
theorem domination_hold_expiry_skips_gameOver :
    neutralizeZone 44 0 0 5 [Tick.mk 2699000 true] ⟨1, 1000, 0, 0⟩
      = some (.exitMode ⟨1, 1000, 0, 0⟩)
    ∧ (gameOverFinalize 2699000 ⟨1, 1000, 0, 0⟩).greenTime = 2698000
    ∧ gameOverWinner (gameOverFinalize 2699000 ⟨1, 1000, 0, 0⟩) = 1 := by
  refine ⟨by decide, by decide, by decide⟩

/-- The Sabotage session clock state: `iTime` is the game start instant
and `start` the once-per-session flag (StartUp.ino lines 77, 90; the
splash handler sets `start = true` before the first `sabotage()` call). -/
structure SabSession where
  iTime : Nat
  start : Bool
deriving DecidableEq, Repr

/-- The entry prologue of `sabotage()` (part_001 lines 39-43): the start
instant is captured only when `start` is still set; on re-entry after a
disarm, `start` is false and `iTime` — the original game clock — is kept.
(`endGame` is also cleared there; it is threaded separately.) -/
def sabotageEnter (now : Nat) (s : SabSession) : SabSession :=
  if s.start then { iTime := now, start := false } else s

/-- Result of one iteration of the armed-phase loop of `destroySabotage()`
(part_001 lines 175-302): `exploded` models `explodeSplash()` on the
`endGame` flag, `failed` models `failSplash()` on bomb-clock expiry,
`preparing s` models a successful disarm calling `sabotage()` again —
back to the Preparing phase with session state `s` — `codeError` the
wrong-password cue, and `continueArmed e` another loop iteration. -/
inductive SabDestroyResult where
  | exploded
  | failed
  | preparing (s : SabSession)
  | codeError
  | continueArmed (endGame : Bool)
deriving DecidableEq, Repr

/-- One iteration of the `destroySabotage()` main loop (part_001 lines
175-302), in source order: the `endGame` check, the bomb-clock expiry
check, the password-protected disarm branch (on success `sabotage()` is
re-entered at instant `reentryNow`), then the hold-to-act disarm branch
(likewise re-entering `sabotage()` on completion). -/
def destroySabotageTick (minutes bombStart : Nat) (endGame : Bool)
    (now : Nat) (key : Option Char) (passwordEnable defusing : Bool)
    (codeInput pw : Fin 8 → Char) (S : Nat) (holdTicks : List Tick)
    (reentryNow : Nat) (s : SabSession) : Option SabDestroyResult :=
  if endGame then some .exploded
  else if timeExpired minutes (usub now bombStart) then some .failed
  else if key == some 'd' && passwordEnable then
    some (if comparePassword codeInput pw then
      .preparing (sabotageEnter reentryNow s) else .codeError)
  else if defusing && !passwordEnable then
    match holdLoop minutes bombStart now S holdTicks with
    | some (.completed _) => some (.preparing (sabotageEnter reentryNow s))
    | some .expired => some (.continueArmed true)
    | some .cancelled => some (.continueArmed false)
    | none => none
  else some (.continueArmed endGame)

/-- Claim C8: on a successful disarm while Armed, the Sabotage variant
transitions back to Preparing with the session clock exactly as it was
(`iTime` untouched, since `start` is already false after the first
entry) — so the mode keeps looping Armed/Preparing — while the Search &
Destroy variant resolves the same event directly to the terminal
disarmed (win) outcome. -/
theorem sabotage_vs_sd_disarm (minutes bombStart now reentryNow S : Nat)
    (ci pw : Fin 8 → Char) (defusing : Bool) (holdTicks : List Tick)
    (s : SabSession) (hstart : s.start = false)
    (hnx : timeExpired minutes (usub now bombStart) = false)
    (hcode : comparePassword ci pw = true) :
    destroySabotageTick minutes bombStart false now (some 'd') true defusing
        ci pw S holdTicks reentryNow s
      = some (.preparing s)
    ∧ destroyTick minutes bombStart false now (some 'd') true defusing
        ci pw S holdTicks
      = some .disarmed := by
  have henter : sabotageEnter reentryNow s = s := by
    unfold sabotageEnter
    rw [hstart]
    simp
  constructor
  · unfold destroySabotageTick
    rw [if_neg (by simp), if_neg (by simp [hnx]), if_pos (by simp),
      if_pos hcode, henter]
  · unfold destroyTick
    rw [if_neg (by simp), if_neg (by simp [hnx]), if_pos (by simp),
      if_pos hcode]

/-- Witness for `sabotage_vs_sd_disarm`: bomb clock at 10 s of a 1-minute
device (`minutes = 0`), correct code entered, session started at 42. -/
theorem sabotage_vs_sd_disarm_witness :
    ((SabSession.mk 42 false).start = false
      ∧ timeExpired 0 (usub 10000 0) = false
      ∧ comparePassword (fun _ => '1') (fun _ => '1') = true)
    ∧ (destroySabotageTick 0 0 false 10000 (some 'd') true false
          (fun _ => '1') (fun _ => '1') 5 [] 55000 (SabSession.mk 42 false)
        = some (.preparing (SabSession.mk 42 false))
      ∧ destroyTick 0 0 false 10000 (some 'd') true false
          (fun _ => '1') (fun _ => '1') 5 []
        = some .disarmed) :=
  ⟨⟨by decide, by decide, (comparePassword_eq_true_iff _ _).2 fun _ => rfl⟩,
    sabotage_vs_sd_disarm 0 0 10000 55000 5 (fun _ => '1') (fun _ => '1')
      false [] (SabSession.mk 42 false) (by decide) (by decide)
      ((comparePassword_eq_true_iff _ _).2 fun _ => rfl)⟩

/-- Claim C10: taking the authentication branch of the armed loop (key
`'d'` with authentication enabled) resolves this very iteration to either
the disarmed outcome or a code-error retry, as a function of the entered
code only: the step never yields the time-expired (exploded / failed)
outcome, even under the hypothesis that the clock expires at some instant
`nowDuringEntry` while the 8 positions are being collected — the blocking
`setCodeTime()` / `getNumber()` entry contains no game- or bomb-clock
check, so expiry can only be observed at the next loop iteration, after
entry completes. The same holds for the pre-arming `search()` loop. -/
theorem code_entry_defers_expiry (minutes bombStart now nowDuringEntry S : Nat)
    (ci pw : Fin 8 → Char) (defusing : Bool) (holdTicks : List Tick)
    (hnx : timeExpired minutes (usub now bombStart) = false)
    (_hexp : timeExpired minutes (usub nowDuringEntry bombStart) = true) :
    destroyTick minutes bombStart false now (some 'd') true defusing
        ci pw S holdTicks
      = some (if comparePassword ci pw then .disarmed else .codeError)
    ∧ destroyTick minutes bombStart false now (some 'd') true defusing
        ci pw S holdTicks ≠ some .exploded
    ∧ searchTick minutes bombStart false now (some 'd') true defusing
        ci pw S holdTicks
      = some (if comparePassword ci pw then .armed else .codeError)
    ∧ searchTick minutes bombStart false now (some 'd') true defusing
        ci pw S holdTicks ≠ some .failed := by
  have hd : destroyTick minutes bombStart false now (some 'd') true defusing
      ci pw S holdTicks
      = some (if comparePassword ci pw then .disarmed else .codeError) := by
    unfold destroyTick
    rw [if_neg (by simp), if_neg (by simp [hnx]), if_pos (by simp)]
  have hs : searchTick minutes bombStart false now (some 'd') true defusing
      ci pw S holdTicks
      = some (if comparePassword ci pw then .armed else .codeError) := by
    unfold searchTick
    rw [if_neg (by simp), if_neg (by simp [hnx]), if_pos (by simp)]
  refine ⟨hd, ?_, hs, ?_⟩
  · rw [hd]
    by_cases hcp : comparePassword ci pw = true
    · simp [hcp]
    · simp [hcp]
  · rw [hs]
    by_cases hcp : comparePassword ci pw = true
    · simp [hcp]
    · simp [hcp]

/-- Witness for `code_entry_defers_expiry`: 1-minute bomb (`minutes = 0`)
entered at 0 ms; the entry runs past the expiry window (sample 59000 ms,
where the expiry check is true), yet the branch resolves to disarmed. -/
theorem code_entry_defers_expiry_witness :
    (timeExpired 0 (usub 0 0) = false ∧ timeExpired 0 (usub 59000 0) = true)
    ∧ (destroyTick 0 0 false 0 (some 'd') true false
          (fun _ => '1') (fun _ => '1') 5 []
        = some (if comparePassword (fun _ => '1') (fun _ => '1')
            then .disarmed else .codeError)
      ∧ destroyTick 0 0 false 0 (some 'd') true false
          (fun _ => '1') (fun _ => '1') 5 [] ≠ some .exploded
      ∧ searchTick 0 0 false 0 (some 'd') true false
          (fun _ => '1') (fun _ => '1') 5 []
        = some (if comparePassword (fun _ => '1') (fun _ => '1')
            then .armed else .codeError)
      ∧ searchTick 0 0 false 0 (some 'd') true false
          (fun _ => '1') (fun _ => '1') 5 [] ≠ some .failed) :=
  ⟨⟨by decide, by decide⟩,
    code_entry_defers_expiry 0 0 0 59000 5 (fun _ => '1') (fun _ => '1')
      false [] (by decide) (by decide)⟩

end AirSoft
